import Mathlib

/-!
Shallow embedding of the autoshorts-ai client-side media composition and
export engine: the scene timeline, the export frame loop, the transition
renderer, the audio mix construction and the session state machines of the
two Player variants (src/components/Player.tsx and the unnamed sibling in
src/unnamed/part_000). Durations and timeline positions are exact rationals;
frame numbers and scene indices are naturals.
-/

/-- A decoded audio buffer; only its duration matters to the timeline. -/
structure AudioBuf where
  duration : ℚ
deriving DecidableEq

/-- Per-scene narration span, `audioBuffer.duration / videoUrls.length`
(Player.tsx lines 115 and 162). -/
def sceneDuration (totalDuration : ℚ) (sceneCount : ℕ) : ℚ :=
  totalDuration / sceneCount

/-- Scene window `[start, end)` of the even split,
`start = index * totalDuration / sceneCount` (spec §4.2, realized by
playAll's per-scene waits and by the export frame loop). -/
def sceneWindowFor (index : ℕ) (totalDuration : ℚ) (sceneCount : ℕ) : ℚ × ℚ :=
  ((index : ℚ) * totalDuration / sceneCount,
   ((index : ℚ) + 1) * totalDuration / sceneCount)

/-- Membership of a timeline position in a half-open window. -/
def inWindow (p : ℚ) (w : ℚ × ℚ) : Prop :=
  w.1 ≤ p ∧ p < w.2

/-- Modelled from the spec: §4.2 `resolve(position, sceneCount, totalDuration)
→ (activeIndex, fractionWithinScene)`, clamped to the last scene at
`position == totalDuration`. No function of this name exists in src/; the
even split and the clamp mirror playAll and the export frame loop. -/
def resolve (position totalDuration : ℚ) (sceneCount : ℕ) : ℕ × ℚ :=
  let d := sceneDuration totalDuration sceneCount
  let idx := min (⌊position / d⌋.toNat) (sceneCount - 1)
  (idx, (position - (idx : ℚ) * d) / d)

/-- Total output frame count, `Math.ceil(audioBuffer.duration * fps)`
(Player.tsx 164). -/
def totalFrames (totalDuration : ℚ) (fps : ℕ) : ℕ :=
  (⌈totalDuration * (fps : ℚ)⌉).toNat

/-- Frames per scene, `Math.ceil(sceneDuration * fps)` (Player.tsx 165). -/
def framesPerScene (totalDuration : ℚ) (sceneCount fps : ℕ) : ℕ :=
  (⌈sceneDuration totalDuration sceneCount * (fps : ℚ)⌉).toNat

/-- Scene shown at a given export frame,
`Math.min(Math.floor(frame / framesPerScene), videoUrls.length - 1)`
(Player.tsx 243). -/
def exportSceneIndex (frame fp sceneCount : ℕ) : ℕ :=
  min (frame / fp) (sceneCount - 1)

/-- Frame position inside the current scene, `frame % framesPerScene`
(Player.tsx 257). -/
def frameInScene (frame fp : ℕ) : ℕ :=
  frame % fp

/-- Transition window length in frames,
`Math.min(fps * 0.7, framesPerScene / 2)` (Player.tsx 258). -/
def transitionFrames (fps fp : ℕ) : ℚ :=
  min ((fps : ℚ) * (7 / 10)) ((fp : ℚ) / 2)

/-- Transition progress, `Math.min(frameInScene / transitionFrames, 1)`
(Player.tsx 259). -/
def transitionProgress (fis : ℕ) (tf : ℚ) : ℚ :=
  min ((fis : ℚ) / tf) 1

/-- The three transition kinds of Player.tsx. -/
inductive TransitionType
  | fade
  | slide
  | zoom
deriving DecidableEq

/-- Raster draw parameters produced by the per-frame transition switch:
global alpha, x-translation and scale about the canvas center
(Player.tsx 262-279; the canvas defaults are alpha 1, offset 0, scale 1). -/
structure DrawParams where
  alpha : ℚ
  offsetX : ℚ
  scale : ℚ
deriving DecidableEq

/-- Per-frame transition application (Player.tsx 264-279): fade sets alpha to
the progress; slide translates by `(1 - progress) * canvas.width`; zoom scales
by `0.8 + 0.2 * progress` about the center with alpha equal to the progress. -/
def applyTransition (kind : TransitionType) (progress width : ℚ) : DrawParams :=
  match kind with
  | .fade => { alpha := progress, offsetX := 0, scale := 1 }
  | .slide => { alpha := 1, offsetX := (1 - progress) * width, scale := 1 }
  | .zoom => { alpha := progress, offsetX := 0, scale := 8 / 10 + 2 / 10 * progress }

/-- Lifecycle of an AudioBufferSourceNode the code has started. -/
inductive SourceState
  | started
  | stopped
deriving DecidableEq

/-- Runtime `stop()`, conservatively modelled as raising the "already
stopped" error on a source that is no longer running; callers must swallow
that error. -/
def sourceStop : SourceState → Except Unit SourceState
  | .started => .ok .stopped
  | .stopped => .error ()

/-- The two source refs held by the part_000 player (narrationSourceRef and
bgmSourceRef); `none` is a null ref. -/
structure AudioRefs where
  narration : Option SourceState
  bgm : Option SourceState
deriving DecidableEq

/-- One `if (ref) { try { ref.stop() } catch (e) {} ref = null }` block of
part_000 stopAudio (lines 134-143); the catch arm swallows the error and the
ref is nulled either way. -/
def stopRef : Option SourceState → Except Unit (Option SourceState)
  | none => .ok none
  | some s =>
    match sourceStop s with
    | .ok _ => .ok none
    | .error _ => .ok none

/-- part_000 stopAudio (134-143): guarded stop of both refs; the returned
value is what escapes to the caller. -/
def stopAudio (a : AudioRefs) : Except Unit AudioRefs := do
  let n ← stopRef a.narration
  let b ← stopRef a.bgm
  pure { narration := n, bgm := b }

/-- loadBgm (Player.tsx 38-48, part_000 37-50): fetch plus decode; the catch
arm only logs to the console, so a failure leaves the buffer absent and
surfaces no user-facing error. The pair is (decoded buffer, user-facing
error count). -/
def loadBgm (fetchAndDecode : Except Unit AudioBuf) : Option AudioBuf × ℕ :=
  match fetchAndDecode with
  | .ok b => (some b, 0)
  | .error _ => (none, 0)

/-- A built audio graph: the narration bus gain plus an optional bgm bus
gain, both terminating at one destination. -/
structure Mix where
  narrationGain : ℚ
  bgmBus : Option ℚ
deriving DecidableEq

/-- playAll's audio-graph construction (Player.tsx 82-112): early return
without a narration buffer; the bgm bus exists iff the bgm buffer decoded. -/
def playAllMix (audioBuffer bgmBuffer : Option AudioBuf)
    (narrationVolume bgmVolume : ℚ) : Option Mix :=
  match audioBuffer with
  | none => none
  | some _ =>
    some { narrationGain := narrationVolume, bgmBus := bgmBuffer.map fun _ => bgmVolume }

/-- exportToMp4's capture-destination mix (Player.tsx 170-190): the same bus
shape as playAllMix, wired to the MediaStream destination of the recorder. -/
def exportMix (audioBuffer bgmBuffer : Option AudioBuf)
    (narrationVolume bgmVolume : ℚ) : Option Mix :=
  match audioBuffer with
  | none => none
  | some _ =>
    some { narrationGain := narrationVolume, bgmBus := bgmBuffer.map fun _ => bgmVolume }

/-- UI and session state of the part_000 player. -/
structure PlayerState where
  isPlaying : Bool
  isExporting : Bool
  isBgmLoading : Bool
  isExportMenuOpen : Bool
  hasAudioBuffer : Bool
  hasBgm : Bool
  narrationLive : Bool
  bgmLive : Bool
  videoPlaying : Bool
  currentVideoIndex : ℕ
  exportProgress : ℕ
deriving DecidableEq

/-- part_000 togglePlay (145-156): when playing, stopAudio plus video pause
plus setIsPlaying(false); otherwise playAudio plus video play plus
setIsPlaying(true). playAudio (89-132) returns early without a narration
buffer and starts the bgm bus only when the bgm buffer decoded. -/
def togglePlay (s : PlayerState) : PlayerState :=
  if s.isPlaying then
    { s with narrationLive := false, bgmLive := false, videoPlaying := false,
             isPlaying := false }
  else
    { s with narrationLive := s.hasAudioBuffer,
             bgmLive := s.hasAudioBuffer && s.hasBgm,
             videoPlaying := true, isPlaying := true }

/-- The part_000 play/pause button carries `disabled={isBgmLoading ||
isExporting}` (line 385), so a click in those states is a no-op. -/
def playButtonClick (s : PlayerState) : PlayerState :=
  if s.isBgmLoading || s.isExporting then s else togglePlay s

/-- Entry of part_000 handleExport (159-166): close the export menu, raise
the export flag, zero the progress, then stop live playback via togglePlay —
all before the export body runs. -/
def handleExportEntry (s : PlayerState) : PlayerState :=
  let s1 := { s with isExportMenuOpen := false, isExporting := true, exportProgress := 0 }
  if s1.isPlaying then togglePlay s1 else s1

/-- part_000 narration onended handler (119-128), fired exactly when the
narration source completes naturally: clear the playing flag, pause the
video, stop the bgm source (guarded, error swallowed) and reset the scene
index to 0. The narration source itself has just ended, so it is not live. -/
def onNarrationEnded (s : PlayerState) : PlayerState :=
  { s with narrationLive := false, isPlaying := false, videoPlaying := false,
           bgmLive := false, currentVideoIndex := 0 }

/-- part_000 handleVideoEnded (77-87): when the active clip ends, advance to
`(currentVideoIndex + 1) % videoUrls.length` if there is more than one clip,
else replay the single clip in place. -/
def handleVideoEnded (currentVideoIndex n : ℕ) : ℕ :=
  if 1 < n then (currentVideoIndex + 1) % n else currentVideoIndex

/-- Observable outcome of one part_000 handleExport run. -/
structure ExportOutcome where
  isExporting : Bool
  alerts : ℕ
  downloadTriggered : Bool
  recorderStopped : Bool
  contextClosed : Bool
deriving DecidableEq

/-- The sequential clip loop of handleExport (239-263): each list entry
records whether that clip's `onloadeddata` fires (true) or its `onerror`
rejects (false); the first rejection unwinds the whole loop. -/
def clipLoop : List Bool → Except Unit Unit
  | [] => .ok ()
  | ok :: rest => if ok then clipLoop rest else .error ()

/-- part_000 handleExport (159-286) after its entry: on a clean clip loop the
recorder is stopped, the audio context closed and the download triggered; a
clip error jumps to the catch arm (one alert) and then the finally arm
(export flag cleared), skipping recorder.stop, offlineCtx.close and the
download, which sit inside the try block after the loop. -/
def handleExportRun (clips : List Bool) : ExportOutcome :=
  match clipLoop clips with
  | .ok _ =>
    { isExporting := false, alerts := 0, downloadTriggered := true,
      recorderStopped := true, contextClosed := true }
  | .error _ =>
    { isExporting := false, alerts := 1, downloadTriggered := false,
      recorderStopped := false, contextClosed := false }

/-- The state-changing steps of one Player.tsx playAll session that touch
the scene index, the media elements or the live flags. -/
inductive PlayEvent
  | setPrev (p : ℤ)
  | setIndex (i : ℕ)
  | playVideo (i : ℕ)
  | pauseVideo (i : ℕ)
  | narrationEnds
  | loopDone
deriving DecidableEq

/-- Iteration i of playAll's scene loop (Player.tsx 117-132), in program
order: set prevIndex, set currentIndex, start clip i, wait one scene window,
pause clip i. Every scene is taken to carry a video clip; an image scene
merely drops the play and pause steps. -/
def sceneIterationEvents (i : ℕ) : List PlayEvent :=
  [.setPrev (if 0 < i then (i : ℤ) - 1 else -1), .setIndex i, .playVideo i,
   .pauseVideo i]

/-- Event list of the whole playAll scene loop over n scenes. -/
def playAllEvents : ℕ → List PlayEvent
  | 0 => []
  | n + 1 => playAllEvents n ++ sceneIterationEvents n

/-- The successive values written to currentIndex during the loop. -/
def playAllIndexTrace (n : ℕ) : List ℕ :=
  (playAllEvents n).filterMap fun e =>
    match e with
    | .setIndex i => some i
    | _ => none

/-- Player.tsx live-session state touched by playAll. -/
structure TsxPlayState where
  isPlaying : Bool
  currentIndex : ℕ
  prevIndex : ℤ
  narrationLive : Bool
  bgmLive : Bool
  videoLive : Option ℕ
deriving DecidableEq

/-- Effect of one playAll step. Player.tsx registers no onended handler on
the narration source, so its natural end changes nothing else; loopDone is
the `setIsPlaying(false)` after the loop (line 134), which leaves the index
and the bgm source as they are. -/
def applyEvent (s : TsxPlayState) : PlayEvent → TsxPlayState
  | .setPrev p => { s with prevIndex := p }
  | .setIndex i => { s with currentIndex := i }
  | .playVideo i => { s with videoLive := some i }
  | .pauseVideo _ => { s with videoLive := none }
  | .narrationEnds => { s with narrationLive := false }
  | .loopDone => { s with isPlaying := false }

/-- State set up by playAll before its loop (Player.tsx 85-112): playing,
index 0, prev -1, narration started, bgm started iff its buffer decoded. -/
def playAllStartState (hasBgm : Bool) : TsxPlayState :=
  { isPlaying := true, currentIndex := 0, prevIndex := -1, narrationLive := true,
    bgmLive := hasBgm, videoLive := none }

/-- A full Player.tsx playAll session running to natural narration
completion: the loop's events, the narration buffer ending by itself when
its duration elapses, then the trailing setIsPlaying(false). -/
def playAllRun (n : ℕ) (hasBgm : Bool) : TsxPlayState :=
  (playAllEvents n ++ [PlayEvent.narrationEnds, PlayEvent.loopDone]).foldl applyEvent
    (playAllStartState hasBgm)

/-- A concrete playing, non-exporting part_000 state, used as a witness
input. -/
def pS0 : PlayerState :=
  { isPlaying := true, isExporting := false, isBgmLoading := false,
    isExportMenuOpen := true, hasAudioBuffer := true, hasBgm := true,
    narrationLive := true, bgmLive := true, videoPlaying := true,
    currentVideoIndex := 1, exportProgress := 0 }

/-- A concrete exporting, non-playing part_000 state, used as a witness
input. -/
def pS1 : PlayerState :=
  { pS0 with isPlaying := false, isExporting := true, narrationLive := false,
             bgmLive := false, videoPlaying := false }

/-- C2: in the export frame loop, the clamped scene index
`min(floor(frame / framesPerScene), sceneCount - 1)` is at most
sceneCount - 1 and is monotonically non-decreasing in the frame number. -/
theorem claim_C2 (D : ℚ) (n fps : ℕ) (hn : 1 ≤ n) :
    (∀ f, exportSceneIndex f (framesPerScene D n fps) n ≤ n - 1) ∧
    (∀ f g, f ≤ g →
      exportSceneIndex f (framesPerScene D n fps) n ≤
        exportSceneIndex g (framesPerScene D n fps) n) := by
  refine ⟨fun f => min_le_right _ _, fun f g hfg => ?_⟩
  exact min_le_min (Nat.div_le_div_right hfg) le_rfl

/-- C2 witness at the spec's round-trip example (two scenes, 10 s narration,
30 fps, frame 299). -/
theorem claim_C2_witness :
    1 ≤ 2 ∧ exportSceneIndex 299 (framesPerScene 10 2 30) 2 ≤ 1 :=
  ⟨by norm_num, (claim_C2 10 2 30 (by norm_num)).1 299⟩

/-- C7: stopAudio never lets an "already stopped" error escape to the
caller: on every ref state — both sources already stopped, never started,
or still running — it returns normally with both refs nulled, so a repeated
stop is also a no-op. -/
theorem claim_C7 (a : AudioRefs) :
    stopAudio a = .ok { narration := none, bgm := none } := by
  obtain ⟨n, b⟩ := a
  cases n with
  | none =>
    cases b with
    | none => rfl
    | some s => cases s <;> rfl
  | some s =>
    cases s <;>
      (cases b with
       | none => rfl
       | some t => cases t <;> rfl)

/-- C8: a failed bgm fetch or decode leaves the buffer absent with zero
user-facing errors, and both the live playback mix and the export mix still
build, narration-only, with no bgm bus. -/
theorem claim_C8 (a : AudioBuf) (nv bv : ℚ) :
    loadBgm (Except.error ()) = (none, 0) ∧
    playAllMix (some a) none nv bv = some { narrationGain := nv, bgmBus := none } ∧
    exportMix (some a) none nv bv = some { narrationGain := nv, bgmBus := none } :=
  ⟨rfl, rfl, rfl⟩

/-- C3: with `transitionFrames = min(fps * 0.7, framesPerScene / 2)` the
transition progress lies in [0,1] for every frame; it equals exactly 1 from
`frameInScene ≥ transitionFrames` on (no overshoot); and progress 1 draws
the asset at full opacity, zero offset and unit scale in every kind. -/
theorem claim_C3 (fps fp : ℕ) (hfps : 1 ≤ fps) (hfp : 1 ≤ fp) :
    (∀ f, 0 ≤ transitionProgress (frameInScene f fp) (transitionFrames fps fp) ∧
          transitionProgress (frameInScene f fp) (transitionFrames fps fp) ≤ 1) ∧
    (∀ k : ℕ, transitionFrames fps fp ≤ (k : ℚ) →
          transitionProgress k (transitionFrames fps fp) = 1) ∧
    (∀ kind w, applyTransition kind 1 w = { alpha := 1, offsetX := 0, scale := 1 }) := by
  have htf : 0 < transitionFrames fps fp := by
    have h1 : (1 : ℚ) ≤ (fps : ℚ) := by exact_mod_cast hfps
    have h2 : (1 : ℚ) ≤ (fp : ℚ) := by exact_mod_cast hfp
    have ha : (0 : ℚ) < (fps : ℚ) * (7 / 10) := by nlinarith
    have hb : (0 : ℚ) < (fp : ℚ) / 2 := by linarith
    exact lt_min ha hb
  refine ⟨fun f => ⟨?_, ?_⟩, fun k hk => ?_, fun kind w => ?_⟩
  · exact le_min (div_nonneg (Nat.cast_nonneg _) htf.le) (by norm_num)
  · exact min_le_right _ _
  · have h1 : (1 : ℚ) ≤ (k : ℚ) / transitionFrames fps fp :=
      (one_le_div htf).mpr hk
    exact min_eq_right h1
  · cases kind <;> simp [applyTransition, DrawParams.mk.injEq] <;> ring

/-- C4: the entry of part_000 handleExport always yields a state that is
exporting and not playing, stopping the live sources first when playback was
active, before any export work runs; and a play-button click while an export
is running leaves the state unchanged, so playback does not start. -/
theorem claim_C4 (s : PlayerState) :
    (handleExportEntry s).isExporting = true ∧
    (handleExportEntry s).isPlaying = false ∧
    (s.isPlaying = true →
      (handleExportEntry s).narrationLive = false ∧
      (handleExportEntry s).bgmLive = false ∧
      (handleExportEntry s).videoPlaying = false) ∧
    (s.isExporting = true → playButtonClick s = s) := by
  refine ⟨?_, ?_, ?_, ?_⟩
  · by_cases h : s.isPlaying = true <;> simp [handleExportEntry, togglePlay, h]
  · by_cases h : s.isPlaying = true <;> simp [handleExportEntry, togglePlay, h]
  · intro h
    simp [handleExportEntry, togglePlay, h]
  · intro h
    simp [playButtonClick, h]

/-- C4 witness: a concrete playing state is stopped by the export entry, and
a play click on a concrete exporting state is a no-op. -/
theorem claim_C4_witness :
    (handleExportEntry pS0).isPlaying = false ∧
    (handleExportEntry pS0).bgmLive = false ∧
    playButtonClick pS1 = pS1 :=
  ⟨(claim_C4 pS0).2.1, ((claim_C4 pS0).2.2.1 rfl).2.1, (claim_C4 pS1).2.2.2 rfl⟩

/-- No playAll step ever touches the bgm source. -/
theorem applyEvent_bgmLive (s : TsxPlayState) (e : PlayEvent) :
    (applyEvent s e).bgmLive = s.bgmLive := by
  cases e <;> rfl

/-- The bgm source keeps its state across any run of playAll steps. -/
theorem foldl_bgmLive (l : List PlayEvent) (s : TsxPlayState) :
    (l.foldl applyEvent s).bgmLive = s.bgmLive := by
  induction l generalizing s with
  | nil => rfl
  | cons e t ih => rw [List.foldl_cons, ih, applyEvent_bgmLive]

/-- After the whole playAll loop the current index is the last scene. -/
theorem playAllEvents_currentIndex (n : ℕ) (s : TsxPlayState) (hn : 1 ≤ n) :
    ((playAllEvents n).foldl applyEvent s).currentIndex = n - 1 := by
  cases n with
  | zero => omega
  | succ m =>
    rw [playAllEvents, List.foldl_append]
    simp [sceneIterationEvents, applyEvent]

/-- C5 counterexample: a Player.tsx session with two scenes and a decoded
bgm buffer that runs to natural narration completion ends with the bgm
source still live, the index still at the last scene and only the playing
flag cleared — the claimed full reset does not happen in this variant. -/
theorem claim_C5_cex :
    (playAllRun 2 true).bgmLive = true ∧
    (playAllRun 2 true).currentIndex = 1 ∧
    (playAllRun 2 true).isPlaying = false := by
  decide

/-- C5 amended: on natural narration completion the part_000 onended handler
performs the full reset — index 0, playing flag false, narration ended and
bgm stopped — while the Player.tsx variant only clears the playing flag,
leaving the bgm source live and the index at the last scene. -/
theorem claim_C5_amended (s : PlayerState) (n : ℕ) (b : Bool) :
    (onNarrationEnded s).currentVideoIndex = 0 ∧
    (onNarrationEnded s).isPlaying = false ∧
    (onNarrationEnded s).narrationLive = false ∧
    (onNarrationEnded s).bgmLive = false ∧
    (playAllRun n b).isPlaying = false ∧
    (playAllRun n b).bgmLive = b ∧
    (1 ≤ n → (playAllRun n b).currentIndex = n - 1) := by
  refine ⟨rfl, rfl, rfl, rfl, ?_, ?_, ?_⟩
  · rw [playAllRun, List.foldl_append]
    rfl
  · rw [playAllRun, foldl_bgmLive]
    rfl
  · intro hn
    rw [playAllRun, List.foldl_append]
    have h2 : ∀ t : TsxPlayState,
        (([PlayEvent.narrationEnds, PlayEvent.loopDone]).foldl applyEvent t).currentIndex
          = t.currentIndex := fun t => rfl
    rw [h2, playAllEvents_currentIndex n _ hn]

/-- C5 amended witness at two scenes with bgm present. -/
theorem claim_C5_amended_witness :
    (onNarrationEnded pS0).currentVideoIndex = 0 ∧
    (playAllRun 2 true).currentIndex = 1 :=
  ⟨(claim_C5_amended pS0 2 true).1,
   (claim_C5_amended pS0 2 true).2.2.2.2.2.2 (by norm_num)⟩

/-- A clip whose load rejects makes the whole clip loop unwind. -/
theorem clipLoop_error_of_mem (clips : List Bool) (h : false ∈ clips) :
    clipLoop clips = .error () := by
  induction clips with
  | nil => simp at h
  | cons c t ih =>
    cases c with
    | false => rfl
    | true =>
      simp at h
      simpa [clipLoop] using ih h

/-- C6 counterexample: when the single clip of an export fails to load, the
job aborts with one alert, no download and a cleared export flag, but the
recorder is never stopped and the capture audio context is never closed —
recorder.stop and offlineCtx.close sit inside the try block and are skipped
on the error path, so the claimed resource release does not happen. -/
theorem claim_C6_cex :
    handleExportRun [false] =
      { isExporting := false, alerts := 1, downloadTriggered := false,
        recorderStopped := false, contextClosed := false } := by
  decide

/-- C6 amended: any clip failing to load aborts the whole export job — no
download is triggered, exactly one user-facing error message is shown, and
the finally arm clears the export flag — but the recorder is not stopped and
the capture audio context is not closed on this path. -/
theorem claim_C6_amended (clips : List Bool) (h : false ∈ clips) :
    (handleExportRun clips).downloadTriggered = false ∧
    (handleExportRun clips).alerts = 1 ∧
    (handleExportRun clips).isExporting = false ∧
    (handleExportRun clips).recorderStopped = false ∧
    (handleExportRun clips).contextClosed = false := by
  have he : clipLoop clips = .error () := clipLoop_error_of_mem clips h
  rw [handleExportRun, he]
  exact ⟨rfl, rfl, rfl, rfl, rfl⟩

/-- C6 amended witness: an export whose second clip fails to load. -/
theorem claim_C6_amended_witness :
    (handleExportRun [true, false]).downloadTriggered = false ∧
    (handleExportRun [true, false]).alerts = 1 :=
  ⟨(claim_C6_amended [true, false] (by decide)).1,
   (claim_C6_amended [true, false] (by decide)).2.1⟩

/-- The index values written by the playAll loop are 0, 1, ..., n-1 in
order. -/
theorem playAllIndexTrace_eq_range (n : ℕ) : playAllIndexTrace n = List.range n := by
  induction n with
  | zero => rfl
  | succ m ih =>
    unfold playAllIndexTrace at ih ⊢
    rw [playAllEvents, List.filterMap_append, ih, sceneIterationEvents,
        List.range_succ]
    rfl

/-- A longer playAll loop extends a shorter one on the right. -/
theorem playAllEvents_extend (m n : ℕ) (h : m ≤ n) :
    ∃ t, playAllEvents n = playAllEvents m ++ t := by
  induction n with
  | zero =>
    have hm : m = 0 := Nat.le_zero.mp h
    subst hm
    exact ⟨[], rfl⟩
  | succ k ih =>
    rcases Nat.lt_or_ge m (k + 1) with hlt | hge
    · obtain ⟨t, ht⟩ := ih (by omega)
      refine ⟨t ++ sceneIterationEvents k, ?_⟩
      rw [playAllEvents, ht, List.append_assoc]
    · have hm : m = k + 1 := by omega
      subst hm
      exact ⟨[], by simp⟩

/-- C9 counterexample: in the part_000 variant the clip-end handler at the
last of two scenes moves the active index from 1 back to 0 while the
narration is still playing — the index decreases, and the wrap to 0 is not
part of a narration-complete reset. -/
theorem claim_C9_cex : handleVideoEnded 1 2 < 1 := by decide

/-- C9 amended: in the timeline-driven Player.tsx variant the active-scene
index trace of a playAll session is non-decreasing, and clip i is paused
before the index advances to i+1; in the clip-onended part_000 variant the
index instead cycles modulo the clip count, so it can wrap to 0 while the
narration continues. -/
theorem claim_C9_amended (n : ℕ) :
    List.Pairwise (· ≤ ·) (playAllIndexTrace n) ∧
    (∀ i, i + 1 < n → ∃ l₁ l₂, playAllEvents n =
      l₁ ++ PlayEvent.pauseVideo i :: PlayEvent.setPrev (i : ℤ) ::
        PlayEvent.setIndex (i + 1) :: l₂) := by
  constructor
  · rw [playAllIndexTrace_eq_range]
    exact (List.pairwise_lt_range n).imp le_of_lt
  · intro i hi
    obtain ⟨t, ht⟩ := playAllEvents_extend (i + 2) n (by omega)
    refine ⟨playAllEvents i ++
      [PlayEvent.setPrev (if 0 < i then (i : ℤ) - 1 else -1), PlayEvent.setIndex i,
       PlayEvent.playVideo i],
      PlayEvent.playVideo (i + 1) :: PlayEvent.pauseVideo (i + 1) :: t, ?_⟩
    rw [ht]
    have h2 : playAllEvents (i + 2) =
        (playAllEvents i ++ sceneIterationEvents i) ++ sceneIterationEvents (i + 1) := by
      rfl
    rw [h2]
    have hc : (if 0 < i + 1 then ((i + 1 : ℕ) : ℤ) - 1 else -1) = (i : ℤ) := by
      simp
    simp only [sceneIterationEvents, hc, List.append_assoc, List.cons_append,
      List.nil_append]

/-- C9 amended witness at three scenes, boundary i = 1. -/
theorem claim_C9_amended_witness :
    List.Pairwise (· ≤ ·) (playAllIndexTrace 3) ∧
    ∃ l₁ l₂, playAllEvents 3 =
      l₁ ++ PlayEvent.pauseVideo 1 :: PlayEvent.setPrev 1 ::
        PlayEvent.setIndex 2 :: l₂ :=
  ⟨(claim_C9_amended 3).1, (claim_C9_amended 3).2 1 (by norm_num)⟩

/-- Coverage of `[0, n*d)` by the n half-open windows `[i*d, (i+1)*d)`. -/
theorem window_cover (d : ℚ) (hd : 0 < d) (n : ℕ) (p : ℚ) :
    (0 ≤ p ∧ p < (n : ℚ) * d) ↔
      ∃ i, i < n ∧ (i : ℚ) * d ≤ p ∧ p < ((i : ℚ) + 1) * d := by
  constructor
  · rintro ⟨hp0, hpn⟩
    have hq0 : (0 : ℚ) ≤ p / d := div_nonneg hp0 hd.le
    have hfl0 : 0 ≤ ⌊p / d⌋ := Int.floor_nonneg.mpr hq0
    have hqn : p / d < (n : ℚ) := by
      rw [div_lt_iff hd]
      exact hpn
    have hltn : ⌊p / d⌋ < (n : ℤ) := by
      rw [Int.floor_lt]
      exact_mod_cast hqn
    have hcast : ((⌊p / d⌋.toNat : ℕ) : ℚ) = ((⌊p / d⌋ : ℤ) : ℚ) := by
      exact_mod_cast Int.toNat_of_nonneg hfl0
    refine ⟨⌊p / d⌋.toNat, by omega, ?_, ?_⟩
    · rw [hcast]
      exact (le_div_iff₀ hd).mp (Int.floor_le (p / d))
    · rw [hcast]
      have h2 : p / d < (⌊p / d⌋ : ℚ) + 1 := Int.lt_floor_add_one (p / d)
      rw [div_lt_iff hd] at h2
      exact h2
  · rintro ⟨i, hin, h1, h2⟩
    have h0 : (0 : ℚ) ≤ (i : ℚ) * d := mul_nonneg (Nat.cast_nonneg i) hd.le
    have hle : ((i : ℚ) + 1) ≤ (n : ℚ) := by exact_mod_cast hin
    exact ⟨le_trans h0 h1,
      lt_of_lt_of_le h2 (mul_le_mul_of_nonneg_right hle hd.le)⟩

/-- C1: for sceneCount ≥ 1 and totalDuration > 0, the even-split scene
windows are contiguous, pairwise disjoint and together cover exactly
[0, totalDuration); and resolving the position totalDuration yields the last
scene with fraction 1. -/
theorem claim_C1 (n : ℕ) (D : ℚ) (hn : 1 ≤ n) (hD : 0 < D) :
    (∀ i, (sceneWindowFor i D n).2 = (sceneWindowFor (i + 1) D n).1) ∧
    (∀ p, (0 ≤ p ∧ p < D) ↔ ∃ i, i < n ∧ inWindow p (sceneWindowFor i D n)) ∧
    (∀ i j p, i < j → j < n → inWindow p (sceneWindowFor i D n) →
      ¬ inWindow p (sceneWindowFor j D n)) ∧
    resolve D D n = (n - 1, 1) := by
  have hnQ : (0 : ℚ) < (n : ℚ) := by exact_mod_cast Nat.lt_of_lt_of_le Nat.zero_lt_one hn
  have hn0 : (n : ℚ) ≠ 0 := hnQ.ne'
  have hd : 0 < D / (n : ℚ) := div_pos hD hnQ
  have hw : ∀ i : ℕ,
      sceneWindowFor i D n = ((i : ℚ) * (D / n), ((i : ℚ) + 1) * (D / n)) := by
    intro i
    unfold sceneWindowFor
    rw [mul_div_assoc, mul_div_assoc]
  have hnD : (n : ℚ) * (D / n) = D := by field_simp
  refine ⟨?_, ?_, ?_, ?_⟩
  · intro i
    rw [hw i, hw (i + 1)]
    push_cast
    ring_nf
  · intro p
    have h := window_cover (D / n) hd n p
    rw [hnD] at h
    simpa [inWindow, hw] using h
  · intro i j p hij hjn hpi hpj
    rw [hw i] at hpi
    rw [hw j] at hpj
    have h1 : ((i : ℚ) + 1) ≤ (j : ℚ) := by exact_mod_cast hij
    have h2 : p < ((i : ℚ) + 1) * (D / n) := hpi.2
    have h3 : (j : ℚ) * (D / n) ≤ p := hpj.1
    have h4 : ((i : ℚ) + 1) * (D / n) ≤ (j : ℚ) * (D / n) :=
      mul_le_mul_of_nonneg_right h1 hd.le
    linarith
  · have hdd : D / (D / (n : ℚ)) = (n : ℚ) := by
      rw [div_div_eq_mul_div, mul_comm, mul_div_assoc, div_self hD.ne', mul_one]
    have hfl : ⌊D / sceneDuration D n⌋ = (n : ℤ) := by
      unfold sceneDuration
      rw [hdd]
      exact Int.floor_natCast n
    have hidx : min (⌊D / sceneDuration D n⌋.toNat) (n - 1) = n - 1 := by
      rw [hfl]
      simp only [Int.toNat_natCast]
      exact min_eq_right (Nat.sub_le n 1)
    have hfra : (D - ((n - 1 : ℕ) : ℚ) * sceneDuration D n) / sceneDuration D n = 1 := by
      unfold sceneDuration
      have hcast : ((n - 1 : ℕ) : ℚ) = (n : ℚ) - 1 := by
        push_cast [hn]
        ring
      rw [hcast]
      field_simp
      ring
    simp only [resolve]
    rw [hidx, hfra]

/-- C1 witness at two scenes and a 10 s narration. -/
theorem claim_C1_witness :
    1 ≤ 2 ∧ (0 : ℚ) < 10 ∧ resolve 10 10 2 = (1, 1) :=
  ⟨by norm_num, by norm_num, (claim_C1 2 10 (by norm_num) (by norm_num)).2.2.2⟩

/-- C10: with totalFrames = ceil(totalDuration * fps) and framesPerScene =
ceil(sceneDuration * fps), totalFrames never exceeds sceneCount *
framesPerScene; hence for every emitted frame the unclamped
floor(frame / framesPerScene) is already at most sceneCount - 1 and the min
clamp in the export frame loop never changes the value. -/
theorem claim_C10 (D : ℚ) (n fps : ℕ) (hn : 1 ≤ n) (hD : 0 < D) (hfps : 1 ≤ fps) :
    totalFrames D fps ≤ n * framesPerScene D n fps ∧
    ∀ f, f < totalFrames D fps →
      f / framesPerScene D n fps ≤ n - 1 ∧
      exportSceneIndex f (framesPerScene D n fps) n = f / framesPerScene D n fps := by
  have hnQ : (0 : ℚ) < (n : ℚ) := by exact_mod_cast Nat.lt_of_lt_of_le Nat.zero_lt_one hn
  have hfpsQ : (0 : ℚ) < (fps : ℚ) := by
    exact_mod_cast Nat.lt_of_lt_of_le Nat.zero_lt_one hfps
  have hx : (0 : ℚ) < sceneDuration D n * (fps : ℚ) := by
    unfold sceneDuration
    exact mul_pos (div_pos hD hnQ) hfpsQ
  have hcx : 0 < ⌈sceneDuration D n * (fps : ℚ)⌉ := Int.ceil_pos.mpr hx
  have hkey : D * (fps : ℚ) = (n : ℚ) * (sceneDuration D n * (fps : ℚ)) := by
    unfold sceneDuration
    field_simp
  have hceil : ⌈(n : ℚ) * (sceneDuration D n * (fps : ℚ))⌉ ≤
      (n : ℤ) * ⌈sceneDuration D n * (fps : ℚ)⌉ := by
    rw [Int.ceil_le]
    push_cast
    exact mul_le_mul_of_nonneg_left (Int.le_ceil _) (by positivity)
  have hpart1 : totalFrames D fps ≤ n * framesPerScene D n fps := by
    unfold totalFrames framesPerScene
    rw [hkey]
    calc (⌈(n : ℚ) * (sceneDuration D n * (fps : ℚ))⌉).toNat
        ≤ ((n : ℤ) * ⌈sceneDuration D n * (fps : ℚ)⌉).toNat :=
          Int.toNat_le_toNat hceil
      _ = n * (⌈sceneDuration D n * (fps : ℚ)⌉).toNat := by
          rw [← Int.toNat_of_nonneg hcx.le, ← Int.natCast_mul, Int.toNat_natCast,
              Int.toNat_natCast]
  have hfp1 : 1 ≤ framesPerScene D n fps := by
    unfold framesPerScene
    omega
  refine ⟨hpart1, fun f hf => ?_⟩
  have hlt : f < n * framesPerScene D n fps := lt_of_lt_of_le hf hpart1
  have hdiv : f / framesPerScene D n fps < n := by
    rw [Nat.div_lt_iff_lt_mul (by omega)]
    omega
  refine ⟨by omega, ?_⟩
  unfold exportSceneIndex
  exact min_eq_left (by omega)

/-- C10 witness at two scenes, 10 s narration, 30 fps: 300 total frames,
150 per scene; the clamp is the identity at the last frame. -/
theorem claim_C10_witness :
    1 ≤ 2 ∧ (0 : ℚ) < 10 ∧ 1 ≤ 30 ∧
    totalFrames 10 30 ≤ 2 * framesPerScene 10 2 30 ∧
    exportSceneIndex 299 (framesPerScene 10 2 30) 2 = 299 / framesPerScene 10 2 30 :=
  ⟨by norm_num, by norm_num, by norm_num,
   (claim_C10 10 2 30 (by norm_num) (by norm_num) (by norm_num)).1,
   ((claim_C10 10 2 30 (by norm_num) (by norm_num) (by norm_num)).2 299
     (by norm_num [totalFrames, Int.ceil_ofNat])).2⟩

/-- C3 witness: at 30 fps and 150 frames per scene the transition window is
21 frames and the progress at frame 21 inside a scene is exactly 1. -/
theorem claim_C3_witness :
    1 ≤ 30 ∧ 1 ≤ 150 ∧ transitionProgress 21 (transitionFrames 30 150) = 1 :=
  ⟨by norm_num, by norm_num,
   (claim_C3 30 150 (by norm_num) (by norm_num)).2.1 21
     (by unfold transitionFrames; exact min_le_of_left_le (by norm_num))⟩
